import Mathlib

/-!
Verification of the miRNA-to-primer pipeline in `src/pages/app.tsx`.

The core is a classify → validate → transform → label pipeline:
`setTypeOfLine` classifies one raw line with JavaScript regular expressions,
and `handleSubmit` splits the submitted text on newlines, classifies each
line, runs the external validator/transformer on sequence lines, derives a
label from the immediately preceding record, and accumulates `Line` records.
The two external collaborators `validateMirna` and `transformMiarnToPrimer`
live outside the scoped source and are taken as parameters.

JavaScript regex semantics modelled here: without flags, `.` matches any
character except the line terminators LF, CR, U+2028, U+2029, and `^`/`$`
anchor at the very start/end of the input string.  JavaScript `split` with a
one-character separator is modelled as `List.splitOn` on the character list
of the string.
-/

namespace Mirna

/-- The line type object: a display name and an optional color token. -/
structure LineType where
  name : String
  color : Option String
deriving Repr, DecidableEq

/-- The `Line` interface of `app.tsx`: category object, optional custom name
(undefined modelled as `none`), displayed text `value`, and the error list
returned by the validator. -/
structure Line where
  type : LineType
  customName : Option String
  value : String
  errors : List String
deriving Repr, DecidableEq

/-- JavaScript line terminators, the characters `.` does not match. -/
def isLineTerm (c : Char) : Bool :=
  c = '\n' || c = '\r' || c = '\u2028' || c = '\u2029'

/-- Test of the header regex (one leading angle bracket, then any run of
dot-matchable characters, anchored): a leading `>` followed only by
non-line-terminator characters. -/
def headerTest (s : String) : Bool :=
  match s.data with
  | [] => false
  | c :: rest => c = '>' && rest.all (fun d => !isLineTerm d)

/-- Membership in the character class `[AUTGCautgc]`. -/
def seqChar (c : Char) : Bool :=
  c = 'A' || c = 'U' || c = 'T' || c = 'G' || c = 'C' ||
  c = 'a' || c = 'u' || c = 't' || c = 'g' || c = 'c'

/-- Test of the sequence regex: one or more alphabet characters, anchored. -/
def seqTest (s : String) : Bool :=
  !s.data.isEmpty && s.data.all seqChar

/-- Test of the comment regex: a leading `;` followed only by
non-line-terminator characters. -/
def comTest (s : String) : Bool :=
  match s.data with
  | [] => false
  | c :: rest => c = ';' && rest.all (fun d => !isLineTerm d)

/-- Test of the blank-line regex: it matches the empty string only. -/
def sdlTest (s : String) : Bool :=
  s.data.isEmpty

/-- The five type objects returned by `setTypeOfLine`. -/
def headerType : LineType := { name := "header", color := some "teal" }

/-- Type object of a sequence line. -/
def sequenceType : LineType := { name := "sequence", color := some "violet" }

/-- Type object of a comment line. -/
def commentType : LineType := { name := "comment", color := some "purple" }

/-- Type object of a blank line: its display name is the empty string and its
color is `undefined`. -/
def blankType : LineType := { name := "", color := none }

/-- Type object of an unrecognized line. -/
def unknownType : LineType := { name := "unknown", color := some "grey" }

/-- Function `setTypeOfLine` from `app.tsx`: first-match classification of one line. -/
def setTypeOfLine (line : String) : LineType :=
  if headerTest line then headerType
  else if seqTest line then sequenceType
  else if comTest line then commentType
  else if sdlTest line then blankType
  else unknownType

/-- JavaScript `s.split(sep)` for a one-character separator `sep`,
on the character list of `s`. -/
def jsSplit (sep : Char) (s : String) : List String :=
  (s.data.splitOn sep).map String.mk

/-- Calls made to the external collaborators, recorded in program order. -/
inductive Event where
  | validateCall (arg : String)
  | transformCall (arg pre suf : String)
deriving Repr, DecidableEq

/-- One iteration of the `for` loop of `handleSubmit`: `prev` is
`lines[i - 1]`, the record appended by the previous
iteration (`none` at index 0).  Returns the pushed record together with the
collaborator calls the iteration makes, in order. -/
def buildStep (validate : String → List String)
    (transform : String → String → String → String)
    (pre suf : String) (prev : Option Line) (rawLine : String) :
    Line × List Event :=
  let type := setTypeOfLine rawLine
  if type.name = "sequence" then
    let errors := validate rawLine
    let step :=
      if errors.length = 0 then
        (transform rawLine pre suf,
         [Event.validateCall rawLine, Event.transformCall rawLine pre suf])
      else
        (rawLine, [Event.validateCall rawLine])
    let customName : Option String :=
      match prev with
      | some p =>
          if p.type.name = "header" then
            some ("_" ++ String.mk ((((jsSplit ' ' p.value).headD "").data).drop 1))
          else
            some ""
      | none => some ""
    (⟨type, customName, step.1, errors⟩, step.2)
  else
    (⟨type, none, rawLine, []⟩, [])

/-- The loop of `handleSubmit` over the remaining raw lines, threading the
previously appended record. -/
def buildAux (validate : String → List String)
    (transform : String → String → String → String)
    (pre suf : String) : Option Line → List String → List Line × List Event
  | _, [] => ([], [])
  | prev, raw :: rest =>
      let step := buildStep validate transform pre suf prev raw
      let tail := buildAux validate transform pre suf (some step.1) rest
      (step.1 :: tail.1, step.2 ++ tail.2)

/-- Function `handleSubmit`: split the submission on `\n` and build one record
per line; the result is the `lines` array handed to the presentation table. -/
def handleSubmit (validate : String → List String)
    (transform : String → String → String → String)
    (pre suf : String) (fasta : String) : List Line :=
  (buildAux validate transform pre suf none (jsSplit '\n' fasta)).1

/-- The collaborator calls one `handleSubmit` run makes, in program order. -/
def handleSubmitEvents (validate : String → List String)
    (transform : String → String → String → String)
    (pre suf : String) (fasta : String) : List Event :=
  (buildAux validate transform pre suf none (jsSplit '\n' fasta)).2

/-- The configured transformer arguments of `app.tsx` (`useState` constants). -/
def primerPrefix : String := "GCGGCG"

/-- The configured suffix literal. -/
def primerSuffix : String := "GTCGTATCCAGTGCAGGGTCCGAGGTATTCGCACTGGATACGAC"

/-- One rendered table row of the presentation table: the ribbon label, the
cell content handed to `mapColor` (`none` where JavaScript indexes past the
end of the split), and the error strings rendered inline. -/
structure DisplayRow where
  label : String
  cell : Option String
  errors : List String
deriving Repr, DecidableEq

/-- JavaScript truthiness of `line.customName` (string or undefined). -/
def strTruthy : Option String → Bool
  | none => false
  | some s => s ≠ ""

/-- The rows the table body renders for one record (`app.tsx` lines 151-196):
a successfully validated sequence record becomes two rows labelled from
`customName`, splitting `value` on `-`; every other record becomes one row. -/
def displayRows (line : Line) : List DisplayRow :=
  if line.type.name = "sequence" ∧ line.errors.length = 0 then
    [⟨if strTruthy line.customName then "primerRT" ++ line.customName.getD ""
      else line.type.name,
      (jsSplit '-' line.value)[0]?, []⟩,
     ⟨if strTruthy line.customName then "primerqPCR-Fwd" ++ line.customName.getD ""
      else line.type.name,
      (jsSplit '-' line.value)[1]?, []⟩]
  else
    [⟨line.type.name, some line.value, line.errors⟩]

/-- Modelled from the spec: the label rule of §4.2 read literally — strip the
leading `>`, split on the first whitespace run, take the first token, prepend
`_`.  Used only to compare the wording of the spec with the space-only
split performed by the code. -/
def specWhitespaceLabel (headerText : String) : String :=
  "_" ++ String.mk ((headerText.data.drop 1).takeWhile (fun c => !c.isWhitespace))

/-- The custom name the loop computes for a sequence line from the previously
appended record. -/
def codeLabel : Option Line → String
  | some p =>
      if p.type.name = "header" then
        "_" ++ String.mk ((((jsSplit ' ' p.value).headD "").data).drop 1)
      else ""
  | none => ""

lemma buildStep_nonseq (v : String → List String)
    (t : String → String → String → String) (p s : String) (prev : Option Line)
    (raw : String) (h : (setTypeOfLine raw).name ≠ "sequence") :
    buildStep v t p s prev raw = (⟨setTypeOfLine raw, none, raw, []⟩, []) := by
  simp [buildStep, h]

lemma buildStep_seq (v : String → List String)
    (t : String → String → String → String) (p s : String) (prev : Option Line)
    (raw : String) (h : (setTypeOfLine raw).name = "sequence") :
    buildStep v t p s prev raw =
      (⟨setTypeOfLine raw, some (codeLabel prev),
        if (v raw).length = 0 then t raw p s else raw, v raw⟩,
       Event.validateCall raw ::
         (if (v raw).length = 0 then [Event.transformCall raw p s] else [])) := by
  by_cases hv : (v raw).length = 0 <;>
    cases prev <;>
    simp [buildStep, codeLabel, h, hv] <;>
    split <;> rfl

lemma buildAux_fst_length (v : String → List String)
    (t : String → String → String → String) (p s : String) :
    ∀ (raws : List String) (prev : Option Line),
      ((buildAux v t p s prev raws).1).length = raws.length := by
  intro raws
  induction raws with
  | nil => intro prev; rfl
  | cons raw rest ih => intro prev; simp [buildAux, ih]

lemma buildAux_fst_get (v : String → List String)
    (t : String → String → String → String) (p s : String) :
    ∀ (raws : List String) (prev : Option Line) (i : Nat), i < raws.length →
      ((buildAux v t p s prev raws).1)[i]? =
        (raws[i]?).map (fun raw => (buildStep v t p s
          (if i = 0 then prev else ((buildAux v t p s prev raws).1)[i - 1]?)
          raw).1) := by
  intro raws
  induction raws with
  | nil => intro prev i h; simp at h
  | cons raw rest ih =>
      intro prev i h
      cases i with
      | zero => simp [buildAux]
      | succ j =>
          have hj : j < rest.length := Nat.lt_of_succ_lt_succ (by simpa using h)
          have ihj := ih (some (buildStep v t p s prev raw).1) j hj
          cases j with
          | zero => simpa [buildAux] using ihj
          | succ k => simpa [buildAux] using ihj

lemma buildAux_snd (v : String → List String)
    (t : String → String → String → String) (p s : String) :
    ∀ (raws : List String) (prev : Option Line),
      (buildAux v t p s prev raws).2 =
        (raws.map (fun raw => (buildStep v t p s none raw).2)).flatten := by
  intro raws
  induction raws with
  | nil => intro prev; rfl
  | cons raw rest ih =>
      intro prev
      have hsnd : (buildStep v t p s prev raw).2 = (buildStep v t p s none raw).2 := by
        by_cases h : (setTypeOfLine raw).name = "sequence"
        · rw [buildStep_seq v t p s prev raw h, buildStep_seq v t p s none raw h]
        · rw [buildStep_nonseq v t p s prev raw h, buildStep_nonseq v t p s none raw h]
      simp [buildAux, ih, hsnd]

lemma handleSubmit_length (v : String → List String)
    (t : String → String → String → String) (p s input : String) :
    (handleSubmit v t p s input).length = (jsSplit '\n' input).length :=
  buildAux_fst_length v t p s (jsSplit '\n' input) none

lemma handleSubmit_get (v : String → List String)
    (t : String → String → String → String) (p s input : String) (i : Nat)
    (h : i < (jsSplit '\n' input).length) :
    (handleSubmit v t p s input)[i]? =
      ((jsSplit '\n' input)[i]?).map (fun raw => (buildStep v t p s
        (if i = 0 then none else (handleSubmit v t p s input)[i - 1]?) raw).1) :=
  buildAux_fst_get v t p s (jsSplit '\n' input) none i h

end Mirna

namespace Mirna

lemma whitespace_cases (c : Char) (h : c.isWhitespace = true) :
    c = ' ' ∨ c = '\t' ∨ c = '\r' ∨ c = '\n' := by
  simpa [Char.isWhitespace, or_assoc] using h

/-- C4 (amended): every line that begins with the character `>` and whose
remaining characters contain no JavaScript line terminator classifies as
Header; and every non-empty string composed only of characters from
AUTGCautgc classifies as Sequence. -/
theorem c4_header_and_sequence_rules :
    (∀ (s : String) (rest : List Char), s.data = '>' :: rest →
      rest.all (fun d => !isLineTerm d) = true → setTypeOfLine s = headerType) ∧
    (∀ s : String, s.data ≠ [] → s.data.all seqChar = true →
      setTypeOfLine s = sequenceType) := by
  constructor
  · intro s rest hs hrest
    have hh : headerTest s = true := by
      simp [headerTest, hs, hrest]
    simp [setTypeOfLine, hh]
  · intro s hne hall
    cases hs : s.data with
    | nil => exact absurd hs hne
    | cons c rest =>
        have hc : seqChar c = true := by
          rw [hs] at hall
          simp only [List.all_cons, Bool.and_eq_true] at hall
          exact hall.1
        have hcne : ¬(c = '>') := by
          intro hgt
          subst hgt
          simp [seqChar] at hc
        have hh : headerTest s = false := by
          simp [headerTest, hs, hcne]
        have hseq : seqTest s = true := by
          simp only [seqTest, hs]
          simp [hs ▸ hall]
        simp [setTypeOfLine, hh, hseq]

/-- C4 counterexample: the two-character line made of `>` followed by a
carriage return begins with `>` but classifies as Unknown, not Header. -/
theorem c4_counterexample_carriage_return :
    (">\r" : String).data.head? = some '>' ∧
    setTypeOfLine ">\r" = unknownType ∧ unknownType ≠ headerType := by
  refine ⟨by decide, by decide, by decide⟩

/-- C4 witness at concrete inputs. -/
theorem c4_witness :
    setTypeOfLine ">abc def" = headerType ∧ setTypeOfLine "AuGc" = sequenceType :=
  ⟨c4_header_and_sequence_rules.1 ">abc def" "abc def".data (by decide) (by decide),
   c4_header_and_sequence_rules.2 "AuGc" (by decide) (by decide)⟩

/-- C5: classification is total with the five variants and Unknown as
catch-all, evaluated first-match in the order header, sequence, comment,
blank, unknown; the empty string is blank while a whitespace-only string is
unknown. -/
theorem c5_classification_total_first_match :
    (∀ s : String, setTypeOfLine s = headerType ∨ setTypeOfLine s = sequenceType ∨
      setTypeOfLine s = commentType ∨ setTypeOfLine s = blankType ∨
      setTypeOfLine s = unknownType) ∧
    ([headerType, sequenceType, commentType, blankType, unknownType] :
      List LineType).Nodup ∧
    (∀ s : String, headerTest s = true → setTypeOfLine s = headerType) ∧
    (∀ s : String, headerTest s = false → seqTest s = true →
      setTypeOfLine s = sequenceType) ∧
    (∀ s : String, headerTest s = false → seqTest s = false → comTest s = true →
      setTypeOfLine s = commentType) ∧
    (∀ s : String, headerTest s = false → seqTest s = false → comTest s = false →
      sdlTest s = true → setTypeOfLine s = blankType) ∧
    (∀ s : String, headerTest s = false → seqTest s = false → comTest s = false →
      sdlTest s = false → setTypeOfLine s = unknownType) ∧
    setTypeOfLine "" = blankType ∧
    (∀ s : String, s.data ≠ [] → s.data.all Char.isWhitespace = true →
      setTypeOfLine s = unknownType) := by
  refine ⟨?_, by decide, ?_, ?_, ?_, ?_, ?_, by decide, ?_⟩
  · intro s
    by_cases h1 : headerTest s <;> by_cases h2 : seqTest s <;>
      by_cases h3 : comTest s <;> by_cases h4 : sdlTest s <;>
      simp [setTypeOfLine, h1, h2, h3, h4]
  · intro s h1; simp [setTypeOfLine, h1]
  · intro s h1 h2; simp [setTypeOfLine, h1, h2]
  · intro s h1 h2 h3; simp [setTypeOfLine, h1, h2, h3]
  · intro s h1 h2 h3 h4; simp [setTypeOfLine, h1, h2, h3, h4]
  · intro s h1 h2 h3 h4; simp [setTypeOfLine, h1, h2, h3, h4]
  · intro s hne hall
    cases hs : s.data with
    | nil => exact absurd hs hne
    | cons c rest =>
        have hc : c.isWhitespace = true := by
          rw [hs] at hall
          simp only [List.all_cons, Bool.and_eq_true] at hall
          exact hall.1
        have h1 : headerTest s = false := by
          rcases whitespace_cases c hc with rfl | rfl | rfl | rfl <;>
            simp [headerTest, hs]
        have h2 : seqTest s = false := by
          rcases whitespace_cases c hc with rfl | rfl | rfl | rfl <;>
            simp [seqTest, hs, seqChar]
        have h3 : comTest s = false := by
          rcases whitespace_cases c hc with rfl | rfl | rfl | rfl <;>
            simp [comTest, hs]
        have h4 : sdlTest s = false := by
          simp [sdlTest, hs]
        simp [setTypeOfLine, h1, h2, h3, h4]

/-- C5 witness at concrete inputs. -/
theorem c5_witness :
    setTypeOfLine "   " = unknownType ∧ setTypeOfLine ">x" = headerType :=
  ⟨c5_classification_total_first_match.2.2.2.2.2.2.2.2 "   " (by decide) (by decide),
   c5_classification_total_first_match.2.2.1 ">x" (by decide)⟩

end Mirna

namespace Mirna

lemma buildStep_type (v : String → List String)
    (t : String → String → String → String) (p s : String) (prev : Option Line)
    (raw : String) : (buildStep v t p s prev raw).1.type = setTypeOfLine raw := by
  by_cases h : (setTypeOfLine raw).name = "sequence"
  · rw [buildStep_seq v t p s prev raw h]
  · rw [buildStep_nonseq v t p s prev raw h]

lemma lt_length_of_get?_eq_some {l : List String} {i : Nat} {a : String}
    (h : l[i]? = some a) : i < l.length :=
  (List.getElem?_eq_some.mp h).1

/-- C1: a loop iteration on a Sequence line calls the validator exactly once,
before any transformation attempt; the transformer runs only when the
validator returned the empty list, receiving the raw line and the configured
literals unchanged, and then the record text is its output verbatim; the
call trace of a whole run is the concatenation of the per-line traces. -/
theorem c1_validator_once_transformer_on_success :
    (∀ (v : String → List String) (t : String → String → String → String)
       (p s : String) (prev : Option Line) (raw : String),
       (setTypeOfLine raw).name = "sequence" →
       ((buildStep v t p s prev raw).2 =
          Event.validateCall raw ::
            (if (v raw).length = 0 then [Event.transformCall raw p s] else []) ∧
        (buildStep v t p s prev raw).1.errors = v raw ∧
        ((v raw).length = 0 →
          (buildStep v t p s prev raw).1.value = t raw p s))) ∧
    (∀ (v : String → List String) (t : String → String → String → String)
       (p s input : String),
       handleSubmitEvents v t p s input =
         ((jsSplit '\n' input).map
           (fun raw => (buildStep v t p s none raw).2)).flatten) := by
  constructor
  · intro v t p s prev raw h
    rw [buildStep_seq v t p s prev raw h]
    refine ⟨rfl, rfl, ?_⟩
    intro hv
    simp [hv]
  · intro v t p s input
    exact buildAux_snd v t p s (jsSplit '\n' input) none

/-- C1 witness at a concrete sequence line with a validator that accepts. -/
theorem c1_witness :
    (buildStep (fun _ => ([] : List String)) (fun a _ _ => a) "P" "S" none
        "AUGC").2 =
      [Event.validateCall "AUGC", Event.transformCall "AUGC" "P" "S"] ∧
    (buildStep (fun _ => ([] : List String)) (fun a _ _ => a) "P" "S" none
        "AUGC").1.value = "AUGC" := by
  have h := c1_validator_once_transformer_on_success.1 (fun _ => [])
    (fun a _ _ => a) "P" "S" none "AUGC" (by decide)
  exact ⟨by simpa using h.1, by simpa using h.2.2 rfl⟩

/-- C3: a Sequence line rejected by the validator keeps its raw text, its
error field is exactly the validator output, and the document still has one
record per line. -/
theorem c3_invalid_sequence_keeps_raw :
    ∀ (v : String → List String) (t : String → String → String → String)
      (p s input : String) (i : Nat) (raw : String),
      (jsSplit '\n' input)[i]? = some raw →
      (setTypeOfLine raw).name = "sequence" →
      v raw ≠ [] →
      (handleSubmit v t p s input).length = (jsSplit '\n' input).length ∧
      ∃ rec, (handleSubmit v t p s input)[i]? = some rec ∧
        rec.value = raw ∧ rec.errors = v raw := by
  intro v t p s input i raw hget hseq hv
  have hi : i < (jsSplit '\n' input).length := lt_length_of_get?_eq_some hget
  have hrec := handleSubmit_get v t p s input i hi
  rw [hget] at hrec
  simp only [Option.map_some'] at hrec
  have hvl : ¬((v raw).length = 0) := by
    simpa [List.length_eq_zero] using hv
  refine ⟨handleSubmit_length v t p s input, ⟨_, hrec, ?_, ?_⟩⟩
  · rw [buildStep_seq v t p s _ raw hseq]
    simp [hvl]
  · rw [buildStep_seq v t p s _ raw hseq]

/-- C3 witness: a one-line document whose validator rejects the line. -/
theorem c3_witness :
    (handleSubmit (fun _ => ["bad1", "bad2"]) (fun a _ _ => a) "P" "S"
        "AUGC").length = 1 ∧
    ∃ rec, (handleSubmit (fun _ => ["bad1", "bad2"]) (fun a _ _ => a) "P" "S"
        "AUGC")[0]? = some rec ∧
      rec.value = "AUGC" ∧ rec.errors = ["bad1", "bad2"] := by
  have h := c3_invalid_sequence_keeps_raw (fun _ => ["bad1", "bad2"])
    (fun a _ _ => a) "P" "S" "AUGC" 0 "AUGC" (by decide) (by decide)
    (by simp)
  exact ⟨h.1, h.2⟩

/-- C6: the builder makes exactly one record per newline-separated raw line,
index-aligned; every non-Sequence record has no label, the raw line as text
and no errors; a trailing newline contributes a final blank record. -/
theorem c6_one_record_per_line :
    (∀ (v : String → List String) (t : String → String → String → String)
       (p s input : String),
       (handleSubmit v t p s input).length = (jsSplit '\n' input).length ∧
       (∀ (i : Nat) (raw : String), (jsSplit '\n' input)[i]? = some raw →
         (setTypeOfLine raw).name ≠ "sequence" →
         (handleSubmit v t p s input)[i]? =
           some ⟨setTypeOfLine raw, none, raw, []⟩)) ∧
    (∀ (v : String → List String) (t : String → String → String → String)
       (p s : String),
       handleSubmit v t p s "x\n" =
         [⟨unknownType, none, "x", []⟩, ⟨blankType, none, "", []⟩]) := by
  constructor
  · intro v t p s input
    refine ⟨handleSubmit_length v t p s input, ?_⟩
    intro i raw hget hns
    have hi : i < (jsSplit '\n' input).length := lt_length_of_get?_eq_some hget
    have hrec := handleSubmit_get v t p s input i hi
    rw [hget] at hrec
    simp only [Option.map_some'] at hrec
    rw [hrec, buildStep_nonseq v t p s _ raw hns]
  · intro v t p s
    rfl

/-- C6 witness on a two-line concrete document. -/
theorem c6_witness :
    (handleSubmit (fun _ => ([] : List String)) (fun a _ _ => a) "P" "S"
        ";c\n???").length = 2 ∧
    (handleSubmit (fun _ => ([] : List String)) (fun a _ _ => a) "P" "S"
        ";c\n???")[0]? = some ⟨setTypeOfLine ";c", none, ";c", []⟩ := by
  have h := c6_one_record_per_line.1 (fun _ => []) (fun a _ _ => a) "P" "S"
    ";c\n???"
  exact ⟨h.1, h.2 0 ";c" (by decide) (by decide)⟩

end Mirna

namespace Mirna

/-- C2 (amended): for a Sequence line at position i whose predecessor record
exists and is a Header, the label is the underscore prepended to the first
token of the header raw text split on space characters (U+0020, as JavaScript
split with a one-space separator does — a tab does not end the token), with
the leading `>` removed from that token; when position i-1 does not exist or
is not a Header, the label is the empty string; only record i-1 is consulted. -/
theorem c2_label_space_token :
    (∀ (v : String → List String) (t : String → String → String → String)
       (p s input : String) (i : Nat) (raw praw : String),
       (jsSplit '\n' input)[i + 1]? = some raw →
       (jsSplit '\n' input)[i]? = some praw →
       (setTypeOfLine raw).name = "sequence" →
       (setTypeOfLine praw).name = "header" →
       ∃ rec, (handleSubmit v t p s input)[i + 1]? = some rec ∧
         rec.customName =
           some ("_" ++ String.mk ((((jsSplit ' ' praw).headD "").data).drop 1))) ∧
    (∀ (v : String → List String) (t : String → String → String → String)
       (p s input : String) (i : Nat) (raw : String),
       (jsSplit '\n' input)[i]? = some raw →
       (setTypeOfLine raw).name = "sequence" →
       (i = 0 ∨ ∃ praw, (jsSplit '\n' input)[i - 1]? = some praw ∧
         (setTypeOfLine praw).name ≠ "header") →
       ∃ rec, (handleSubmit v t p s input)[i]? = some rec ∧
         rec.customName = some "") := by
  constructor
  · intro v t p s input i raw praw hget hpget hseq hph
    have hi1 : i + 1 < (jsSplit '\n' input).length := lt_length_of_get?_eq_some hget
    have hi : i < (jsSplit '\n' input).length := lt_length_of_get?_eq_some hpget
    have hprec := handleSubmit_get v t p s input i hi
    rw [hpget] at hprec
    simp only [Option.map_some'] at hprec
    have hpns : (setTypeOfLine praw).name ≠ "sequence" := by
      rw [hph]; decide
    rw [buildStep_nonseq v t p s _ praw hpns] at hprec
    have hrec := handleSubmit_get v t p s input (i + 1) hi1
    rw [hget] at hrec
    simp only [Option.map_some'] at hrec
    rw [if_neg (Nat.succ_ne_zero i), Nat.add_sub_cancel, hprec] at hrec
    refine ⟨_, hrec, ?_⟩
    rw [buildStep_seq v t p s _ raw hseq]
    simp [codeLabel, hph]
  · intro v t p s input i raw hget hseq hcase
    have hi : i < (jsSplit '\n' input).length := lt_length_of_get?_eq_some hget
    have hrec := handleSubmit_get v t p s input i hi
    rw [hget] at hrec
    simp only [Option.map_some'] at hrec
    by_cases hi0 : i = 0
    · subst hi0
      rw [if_pos rfl] at hrec
      refine ⟨_, hrec, ?_⟩
      rw [buildStep_seq v t p s none raw hseq]
      simp [codeLabel]
    · rcases hcase with hc | ⟨praw, hpget, hpne⟩
      · exact absurd hc hi0
      · have hi' : i - 1 < (jsSplit '\n' input).length :=
          Nat.lt_of_le_of_lt (Nat.sub_le i 1) hi
        have hprec := handleSubmit_get v t p s input (i - 1) hi'
        rw [hpget] at hprec
        simp only [Option.map_some'] at hprec
        rw [if_neg hi0, hprec] at hrec
        refine ⟨_, hrec, ?_⟩
        rw [buildStep_seq v t p s _ raw hseq]
        have hty := buildStep_type v t p s
          (if i - 1 = 0 then none
           else (handleSubmit v t p s input)[i - 1 - 1]?) praw
        simp [codeLabel, hty, hpne]

/-- C2 counterexample: a header containing a tab inside its first
space-delimited token gives the label with the tab kept, not the label cut at
the first whitespace run that the specification describes. -/
theorem c2_counterexample_tab :
    ((handleSubmit (fun _ => ([] : List String)) (fun a _ _ => a) "P" "S"
        ">a\tb\nAUGC")[1]?).map Line.customName = some (some "_a\tb") ∧
    specWhitespaceLabel ">a\tb" = "_a" ∧ ("_a\tb" : String) ≠ "_a" := by
  refine ⟨by decide, by decide, by decide⟩

/-- C2 witness: a sequence line after a space-separated header, and a
sequence line at position 0. -/
theorem c2_witness :
    (∃ rec, (handleSubmit (fun _ => ([] : List String)) (fun a _ _ => a)
        "P" "S" ">h x\nAUGC")[0 + 1]? = some rec ∧
      rec.customName =
        some ("_" ++ String.mk ((((jsSplit ' ' ">h x").headD "").data).drop 1))) ∧
    (∃ rec, (handleSubmit (fun _ => ([] : List String)) (fun a _ _ => a)
        "P" "S" "AUGC")[0]? = some rec ∧ rec.customName = some "") := by
  refine ⟨c2_label_space_token.1 (fun _ => []) (fun a _ _ => a) "P" "S"
    ">h x\nAUGC" 0 "AUGC" ">h x" (by decide) (by decide) (by decide) (by decide),
    c2_label_space_token.2 (fun _ => []) (fun a _ _ => a) "P" "S"
    "AUGC" 0 "AUGC" (by decide) (by decide) (Or.inl rfl)⟩

end Mirna

namespace Mirna

lemma buildAux_nil (v : String → List String)
    (t : String → String → String → String) (p s : String) (prev : Option Line) :
    buildAux v t p s prev [] = ([], []) := rfl

lemma buildAux_cons (v : String → List String)
    (t : String → String → String → String) (p s : String) (prev : Option Line)
    (raw : String) (rest : List String) :
    buildAux v t p s prev (raw :: rest) =
      ((buildStep v t p s prev raw).1 ::
        (buildAux v t p s (some (buildStep v t p s prev raw).1) rest).1,
       (buildStep v t p s prev raw).2 ++
        (buildAux v t p s (some (buildStep v t p s prev raw).1) rest).2) := rfl

/-- C7: building the five-line example input with the configured literals
yields exactly the five records of the specification, for any validator and
transformer. -/
theorem c7_end_to_end_example :
    ∀ (v : String → List String) (t : String → String → String → String),
      handleSubmit v t primerPrefix primerSuffix
          ">mir1 desc\nAUGCAUGC\n;note\n\n???" =
        [⟨headerType, none, ">mir1 desc", []⟩,
         ⟨sequenceType, some "_mir1",
          if (v "AUGCAUGC").length = 0 then
            t "AUGCAUGC" primerPrefix primerSuffix
          else "AUGCAUGC", v "AUGCAUGC"⟩,
         ⟨commentType, none, ";note", []⟩,
         ⟨blankType, none, "", []⟩,
         ⟨unknownType, none, "???", []⟩] := by
  intro v t
  unfold handleSubmit
  rw [show jsSplit '\n' ">mir1 desc\nAUGCAUGC\n;note\n\n???" =
      [">mir1 desc", "AUGCAUGC", ";note", "", "???"] from by decide]
  simp only [buildAux_cons, buildAux_nil]
  rw [buildStep_nonseq v t primerPrefix primerSuffix none ">mir1 desc" (by decide)]
  rw [buildStep_seq v t primerPrefix primerSuffix _ "AUGCAUGC" (by decide)]
  rw [buildStep_nonseq v t primerPrefix primerSuffix _ ";note" (by decide)]
  rw [buildStep_nonseq v t primerPrefix primerSuffix _ "" (by decide)]
  rw [buildStep_nonseq v t primerPrefix primerSuffix _ "???" (by decide)]
  dsimp only
  rw [show setTypeOfLine ">mir1 desc" = headerType from by decide]
  rw [show setTypeOfLine "AUGCAUGC" = sequenceType from by decide]
  rw [show setTypeOfLine ";note" = commentType from by decide]
  rw [show setTypeOfLine "" = blankType from by decide]
  rw [show setTypeOfLine "???" = unknownType from by decide]
  rw [show codeLabel (some ⟨headerType, none, ">mir1 desc", []⟩) = "_mir1"
      from by decide]

lemma splitOn_space_head (rest : List Char) :
    ('>' :: ' ' :: rest).splitOn ' ' = ['>'] :: rest.splitOn ' ' := by
  simp [List.splitOn, List.splitOnP_cons]

/-- C9: a Sequence line whose preceding record is a Header with raw text
exactly `>`, or whose text after `>` starts with a space, gets the label made
of a bare underscore; more generally a Header predecessor never yields the
empty label. -/
theorem c9_bare_header_underscore_label :
    ∀ (v : String → List String) (t : String → String → String → String)
      (p s raw : String) (prevRec : Line),
      (setTypeOfLine raw).name = "sequence" →
      prevRec.type.name = "header" →
      ((prevRec.value = ">" ∨
        (prevRec.value.data.head? = some '>' ∧
         prevRec.value.data.tail.head? = some ' ')) →
        (buildStep v t p s (some prevRec) raw).1.customName = some "_") ∧
      (buildStep v t p s (some prevRec) raw).1.customName ≠ some "" := by
  intro v t p s raw prevRec hseq hph
  rw [buildStep_seq v t p s (some prevRec) raw hseq]
  constructor
  · intro hval
    rcases hval with hv1 | ⟨hh, ht⟩
    · simp only [codeLabel, hph, if_pos]
      rw [hv1]
      decide
    · obtain ⟨rest, hl⟩ : ∃ rest, prevRec.value.data = '>' :: ' ' :: rest := by
        cases hd : prevRec.value.data with
        | nil => rw [hd] at hh; simp at hh
        | cons c cs =>
            rw [hd] at hh ht
            simp only [List.head?_cons, Option.some_inj] at hh
            simp only [List.tail_cons] at ht
            cases hcs : cs with
            | nil => rw [hcs] at ht; simp at ht
            | cons d ds =>
                rw [hcs] at ht
                simp only [List.head?_cons, Option.some_inj] at ht
                subst hh
                subst ht
                subst hcs
                exact ⟨ds, rfl⟩
      simp only [codeLabel, hph, if_pos, jsSplit, hl, splitOn_space_head,
        List.map_cons, List.headD_cons]
      decide
  · simp only [codeLabel, hph, if_pos, ne_eq, Option.some_inj]
    intro hcontra
    have hdata := congrArg String.data hcontra
    rw [String.data_append] at hdata
    simp at hdata

/-- C9 witness: a bare `>` header and a `> abc` header both give label `_`. -/
theorem c9_witness :
    (buildStep (fun _ => ([] : List String)) (fun a _ _ => a) "P" "S"
        (some ⟨headerType, none, ">", []⟩) "AUGC").1.customName = some "_" ∧
    (buildStep (fun _ => ([] : List String)) (fun a _ _ => a) "P" "S"
        (some ⟨headerType, none, "> abc", []⟩) "AUGC").1.customName = some "_" := by
  refine ⟨(c9_bare_header_underscore_label (fun _ => []) (fun a _ _ => a)
      "P" "S" "AUGC" ⟨headerType, none, ">", []⟩ (by decide) rfl).1
      (Or.inl rfl),
    (c9_bare_header_underscore_label (fun _ => []) (fun a _ _ => a)
      "P" "S" "AUGC" ⟨headerType, none, "> abc", []⟩ (by decide) rfl).1
      (Or.inr ⟨by decide, by decide⟩)⟩

lemma setTypeOfLine_cases (line : String) :
    setTypeOfLine line = headerType ∨ setTypeOfLine line = sequenceType ∨
    setTypeOfLine line = commentType ∨ setTypeOfLine line = blankType ∨
    setTypeOfLine line = unknownType := by
  by_cases h1 : headerTest line <;> by_cases h2 : seqTest line <;>
    by_cases h3 : comTest line <;> by_cases h4 : sdlTest line <;>
    simp [setTypeOfLine, h1, h2, h3, h4]

/-- C10: for every input and total collaborators the builder terminates with
one record per line, classification always returns one of the five variants,
and the position-0 lookback is guarded: a Sequence line at position 0 gets
the empty label instead of an out-of-bounds access. -/
theorem c10_builder_total_and_guarded :
    ∀ (v : String → List String) (t : String → String → String → String)
      (p s input : String),
      (handleSubmit v t p s input).length = (jsSplit '\n' input).length ∧
      (∀ line : String, setTypeOfLine line = headerType ∨
        setTypeOfLine line = sequenceType ∨ setTypeOfLine line = commentType ∨
        setTypeOfLine line = blankType ∨ setTypeOfLine line = unknownType) ∧
      (∀ raw : String, (jsSplit '\n' input)[0]? = some raw →
        (setTypeOfLine raw).name = "sequence" →
        ∃ rec, (handleSubmit v t p s input)[0]? = some rec ∧
          rec.customName = some "") := by
  intro v t p s input
  refine ⟨handleSubmit_length v t p s input, fun line => setTypeOfLine_cases line, ?_⟩
  intro raw hget hseq
  have hi : 0 < (jsSplit '\n' input).length := lt_length_of_get?_eq_some hget
  have hrec := handleSubmit_get v t p s input 0 hi
  rw [hget] at hrec
  simp only [Option.map_some', if_true] at hrec
  refine ⟨_, hrec, ?_⟩
  rw [buildStep_seq v t p s none raw hseq]
  simp [codeLabel]

/-- C10 witness on a concrete single-sequence-line input. -/
theorem c10_witness :
    (handleSubmit (fun _ => ([] : List String)) (fun a _ _ => a) "P" "S"
        "AUGC").length = 1 ∧
    ∃ rec, (handleSubmit (fun _ => ([] : List String)) (fun a _ _ => a)
        "P" "S" "AUGC")[0]? = some rec ∧ rec.customName = some "" := by
  have h := c10_builder_total_and_guarded (fun _ => []) (fun a _ _ => a)
    "P" "S" "AUGC"
  exact ⟨h.1, h.2.2 "AUGC" (by decide) (by decide)⟩

/-- C8 (amended): a Sequence record with no errors renders as two rows whose
cells are the text split on `-` at indices 0 and 1; their labels are
`primerRT` and `primerqPCR-Fwd` followed by the record label when that label
is non-empty, and the bare category name `sequence` when the label is absent
or empty. -/
theorem c8_rows_rt_and_qpcr :
    ∀ rec : Line, rec.type.name = "sequence" → rec.errors = [] →
      ((displayRows rec).length = 2 ∧
       (displayRows rec).map DisplayRow.cell =
         [(jsSplit '-' rec.value)[0]?, (jsSplit '-' rec.value)[1]?] ∧
       (∀ n : String, rec.customName = some n → n ≠ "" →
         (displayRows rec).map DisplayRow.label =
           ["primerRT" ++ n, "primerqPCR-Fwd" ++ n]) ∧
       ((rec.customName = some "" ∨ rec.customName = none) →
         (displayRows rec).map DisplayRow.label = ["sequence", "sequence"])) := by
  intro rec hseq herr
  have hcond : rec.type.name = "sequence" ∧ rec.errors.length = 0 :=
    ⟨hseq, by rw [herr]; rfl⟩
  refine ⟨?_, ?_, ?_, ?_⟩
  · simp [displayRows, hcond]
  · simp [displayRows, hcond]
  · intro n hn hne
    simp [displayRows, hcond, hn, strTruthy, hne]
  · intro hcase
    rcases hcase with hn | hn <;>
      simp [displayRows, hcond, hn, strTruthy, hseq]

/-- C8 counterexample: the rendered row labels use `primerRT` and
`primerqPCR-Fwd`, not `primerA` and `primerB`. -/
theorem c8_counterexample_labels :
    displayRows ⟨sequenceType, some "_mir1", "AAA-TTT", []⟩ =
      [⟨"primerRT_mir1", some "AAA", []⟩,
       ⟨"primerqPCR-Fwd_mir1", some "TTT", []⟩] ∧
    ("primerRT_mir1" : String) ≠ "primerA" ++ "_mir1" ∧
    ("primerqPCR-Fwd_mir1" : String) ≠ "primerB" ++ "_mir1" := by
  refine ⟨by decide, by decide, by decide⟩

/-- C8 witness at a concrete labelled record. -/
theorem c8_witness :
    (displayRows ⟨sequenceType, some "_m", "A-T", []⟩).map DisplayRow.label =
      ["primerRT_m", "primerqPCR-Fwd_m"] := by
  have h := c8_rows_rt_and_qpcr ⟨sequenceType, some "_m", "A-T", []⟩ rfl rfl
  simpa using h.2.2.1 "_m" rfl (by decide)

end Mirna
